import Mathlib

/-!
Verification of the Harold's Synth audio core: a shallow embedding of
`src/audio/SynthEngine.ts` (the synthesis engine) and of the pitch-gesture
mapping effect in `src/App.tsx`, with theorems settling the specification
claims about chord voicing, LFO freeze/unfreeze, waveform morphing,
parameter clamping and gesture priority.

Modelling conventions:
* Web Audio `AudioParam`s are modelled as a current value together with the
  list of pending scheduled events.  `cancelScheduledValues` discards the
  pending events; `setValueAtTime`/`linearRampToValueAtTime` append events.
  Every `setValueAtTime` in the source is issued at the current time, so the
  model lets it update the instantaneous value as well.
* The audio clock is external: operations that read `audioContext.currentTime`
  take the time as an explicit argument.
* Machine doubles are modelled as real numbers; the claims under
  consideration are about the exact formulas, not float rounding.
-/

noncomputable section

namespace HaroldsSynth

/-- A scheduled automation event on a Web Audio `AudioParam`. -/
inductive ParamEvent where
  | setValue (v t : ℝ)
  | linearRamp (v t : ℝ)

/-- A Web Audio `AudioParam`: instantaneous value plus pending schedule. -/
structure AudioParam where
  value : ℝ
  schedule : List ParamEvent

/-- `param.cancelScheduledValues(t)`: drop the pending schedule. -/
def AudioParam.cancelScheduledValues (p : AudioParam) (_t : ℝ) : AudioParam :=
  { p with schedule := [] }

/-- `param.setValueAtTime(v, t)`: in the source always called with `t = now`,
so the instantaneous value becomes `v` and the event is recorded. -/
def AudioParam.setValueAtTime (p : AudioParam) (v t : ℝ) : AudioParam :=
  { value := v, schedule := p.schedule ++ [ParamEvent.setValue v t] }

/-- `param.linearRampToValueAtTime(v, t)`: schedule a linear ramp ending at
value `v` at time `t`; the instantaneous value is unchanged. -/
def AudioParam.linearRampToValueAtTime (p : AudioParam) (v t : ℝ) : AudioParam :=
  { p with schedule := p.schedule ++ [ParamEvent.linearRamp v t] }

/-- Chord quality, `'minor' | 'major'` in the source. -/
inductive Quality where
  | minor
  | major
deriving DecidableEq

/-- The waveform carried by an oscillator: one of the two native types used
by the engine, or a custom periodic wave given by its Fourier tables. -/
inductive Waveform where
  | sawtooth
  | triangle
  | periodicWave (real imag : List ℝ)

/-- An `OscillatorNode` as used by the engine: frequency param and waveform. -/
structure OscillatorNode where
  frequency : AudioParam
  waveform : Waveform

/-- A `BiquadFilterNode` as used by the engine (lowpass, `Q = 1`). -/
structure BiquadFilterNode where
  frequency : AudioParam
  q : ℝ

/-- The state of a `SynthEngine` instance: one field per TypeScript class
field.  Nullable node references are `Option`/`Bool` fields; `gainNode`,
`lfo`, `lfoGain` and `lfoOffset` are represented by the single `AudioParam`
the engine automates on them. -/
structure SynthEngine where
  audioContext : Bool
  oscillators : List OscillatorNode
  filter : Option BiquadFilterNode
  gainNode : Option AudioParam
  isPlaying : Bool
  lfo : Option AudioParam
  lfoGain : Option AudioParam
  lfoOffset : Option AudioParam
  analyser : Bool
  rootMidi : ℤ
  chordExtension : ℕ
  chordQuality : Quality
  maxCutoff : ℝ
  minCutoff : ℝ
  currentLfoRate : ℝ
  lfoDepth : ℝ
  currentWaveformMorph : ℝ
  lfoStartTime : ℝ
  targetVolume : ℝ
  fadeDuration : ℝ
  isLfoFrozen : Bool

/-- A freshly constructed engine, with the field initializers of the class. -/
def defaultEngine : SynthEngine :=
  { audioContext := false
    oscillators := []
    filter := none
    gainNode := none
    isPlaying := false
    lfo := none
    lfoGain := none
    lfoOffset := none
    analyser := false
    rootMidi := 48
    chordExtension := 7
    chordQuality := Quality.minor
    maxCutoff := 1000
    minCutoff := 300
    currentLfoRate := 0.2
    lfoDepth := 1.0
    currentWaveformMorph := 0
    lfoStartTime := 0
    targetVolume := 0.3
    fadeDuration := 3.0
    isLfoFrozen := false }

/-- `getChordFrequencies`: intervals for the current chord, converted to
frequencies by `440 * 2^((midiNote - 69) / 12)`. -/
def getChordFrequencies (rootMidi : ℤ) (chordExtension : ℕ) (chordQuality : Quality) :
    List ℝ :=
  let intervals : List ℤ :=
    if chordExtension = 7 then
      if chordQuality = Quality.minor then [0, 3, 7, 10] else [0, 4, 7, 11]
    else if chordExtension = 9 then
      if chordQuality = Quality.minor then [0, 3, 7, 10, 14] else [0, 4, 7, 11, 14]
    else []
  intervals.map (fun interval =>
    let midiNote := rootMidi + interval
    440 * (2 : ℝ) ^ ((((midiNote : ℝ)) - 69) / 12))

/-- `getOscillatorCount`: voices needed for a chord extension. -/
def getOscillatorCount (chordExtension : ℕ) : ℕ :=
  if chordExtension = 5 then 2
  else if chordExtension = 7 then 4
  else if chordExtension = 9 then 5
  else 4

/-- `updateLfoDepth`: ramp the LFO depth gain to
`(maxCutoff - minCutoff) * lfoDepth / 2` over 100 ms; no-op when the gain
node or the audio context is missing. -/
def updateLfoDepth (e : SynthEngine) (now : ℝ) : SynthEngine :=
  match e.lfoGain, e.audioContext with
  | some lfoGain, true =>
    let range := e.maxCutoff - e.minCutoff
    let depth := (range * e.lfoDepth) / 2
    { e with lfoGain := some (lfoGain.linearRampToValueAtTime depth (now + 0.1)) }
  | _, _ => e

/-- `updateLfoOffset`: ramp the centerpoint offset to
`(minCutoff + maxCutoff) / 2` over 100 ms; no-op when the offset node or the
audio context is missing. -/
def updateLfoOffset (e : SynthEngine) (now : ℝ) : SynthEngine :=
  match e.lfoOffset, e.audioContext with
  | some lfoOffset, true =>
    let baseCutoff := (e.minCutoff + e.maxCutoff) / 2
    { e with lfoOffset := some (lfoOffset.linearRampToValueAtTime baseCutoff (now + 0.1)) }
  | _, _ => e

/-- The engine's `initialize()` method: a no-op when the audio context already
exists, otherwise it constructs the rendering graph (filter, LFO oscillator,
depth gain, centerpoint offset, master gain, analyser) and records the LFO
start time.  The newly created Web Audio nodes carry their platform default
values (`BiquadFilter.frequency` 350, `Gain.gain` 1, `ConstantSource.offset`
1) before the engine adjusts them. -/
def initEngine (e : SynthEngine) (now : ℝ) : SynthEngine :=
  if e.audioContext then e
  else
    let e1 := { e with audioContext := true }
    let e2 := { e1 with filter := some { frequency := { value := 350, schedule := [] }, q := 1 } }
    let e3 := { e2 with lfo := some { value := e.currentLfoRate, schedule := [] } }
    let e4 := updateLfoDepth { e3 with lfoGain := some { value := 1, schedule := [] } } now
    let e5 := updateLfoOffset { e4 with lfoOffset := some { value := 1, schedule := [] } } now
    let e6 := { e5 with lfoStartTime := now }
    let initialFreq := (e.minCutoff + e.maxCutoff) / 2
    let e7 := { e6 with
      filter := e6.filter.map (fun (f : BiquadFilterNode) =>
        { f with frequency := { f.frequency with value := initialFreq } }) }
    let e8 := { e7 with gainNode := some { value := 0.3, schedule := [] } }
    { e8 with analyser := true }

/-- The coefficient the `setCustomWaveform` loop writes at harmonic `i`:
0 at DC, 1 at the fundamental, and for `i ≥ 2` the blend
`sawtooth(i) * (1 - openness) + triangle(i) * openness` where the sawtooth
contributes `1/i` everywhere and the triangle contributes
`(8 / (π * π * i * i)) * (-1)^((i-1)/2)` at odd harmonics only. -/
def customWaveCoeff (openness : ℝ) (i : ℕ) : ℝ :=
  if i = 0 then 0
  else if i = 1 then 1
  else
    let sawtoothAmplitude : ℝ := 1 / (i : ℝ)
    let triangleAmplitude : ℝ :=
      if i % 2 = 1 then
        (8 / (Real.pi * Real.pi * (i : ℝ) * (i : ℝ))) * (-1 : ℝ) ^ ((i - 1) / 2)
      else 0
    sawtoothAmplitude * (1 - openness) + triangleAmplitude * openness

/-- The `real` Fourier table built by `setCustomWaveform`: 32 zeros. -/
def customWaveReal : List ℝ :=
  (List.range 32).map (fun _ => 0)

/-- The `imag` Fourier table built by `setCustomWaveform`. -/
def customWaveImag (openness : ℝ) : List ℝ :=
  (List.range 32).map (customWaveCoeff openness)

/-- `setCustomWaveform`: install the 32-harmonic blended periodic wave on an
oscillator; no-op without an audio context. -/
def setCustomWaveform (e : SynthEngine) (osc : OscillatorNode) (openness : ℝ) :
    OscillatorNode :=
  if e.audioContext = false then osc
  else { osc with waveform := Waveform.periodicWave customWaveReal (customWaveImag openness) }

/-- `applyWaveform`: snap to native sawtooth at `openness ≤ 0.05`, to native
triangle at `openness ≥ 1 - 0.05`, and otherwise synthesize the custom
periodic wave. -/
def applyWaveform (e : SynthEngine) (osc : OscillatorNode) (openness : ℝ) :
    OscillatorNode :=
  if openness ≤ 0.05 then { osc with waveform := Waveform.sawtooth }
  else if 1 - 0.05 ≤ openness then { osc with waveform := Waveform.triangle }
  else setCustomWaveform e osc openness

/-- `setWaveformFromOpenness`: clamp to [0,1], ignore changes below 0.01,
store the morph and reapply the waveform to every voice while playing. -/
def setWaveformFromOpenness (e : SynthEngine) (openness : ℝ) : SynthEngine :=
  let clampedOpenness := max 0 (min 1 openness)
  if |e.currentWaveformMorph - clampedOpenness| < 0.01 then e
  else
    let e1 := { e with currentWaveformMorph := clampedOpenness }
    if e1.isPlaying then
      { e1 with oscillators := e1.oscillators.map (fun osc => applyWaveform e1 osc clampedOpenness) }
    else e1

/-- The message of the error `start()` throws before initialization. -/
def startErrorMessage : String :=
  "SynthEngine not initialized. Call initialize() first."

/-- The engine's `start()` method: throws before initialization, no-op while
already playing, otherwise resets the master gain to 0 at the current time,
creates one sawtooth oscillator per chord frequency and marks the engine
playing. -/
def start (e : SynthEngine) (now : ℝ) : Except String SynthEngine :=
  match e.audioContext, e.filter, e.gainNode with
  | true, some _, some gain =>
    if e.isPlaying then Except.ok e
    else
      let gain' := (gain.cancelScheduledValues now).setValueAtTime 0 now
      let frequencies := getChordFrequencies e.rootMidi e.chordExtension e.chordQuality
      let oscillators := frequencies.map (fun freq =>
        { frequency := { value := freq, schedule := [] }
          waveform := Waveform.sawtooth : OscillatorNode })
      Except.ok { e with gainNode := some gain', oscillators := oscillators, isPlaying := true }
  | _, _, _ => Except.error startErrorMessage

/-- The engine's `setChord` method: clamp the root to [36,84]; return
unchanged when nothing changed; while playing, recreate the oscillator bank
when the voice count changes (applying the current morph to the new voices)
and otherwise ramp each voice's frequency to its new target over 50 ms. -/
def setChord (e : SynthEngine) (rootMidi : ℤ) (chordExtension : ℕ)
    (chordQuality : Quality) (now : ℝ) : SynthEngine :=
  let clampedRoot := max 36 (min 84 rootMidi)
  if e.rootMidi = clampedRoot ∧ e.chordExtension = chordExtension ∧
      e.chordQuality = chordQuality then e
  else
    let oldOscillatorCount := getOscillatorCount e.chordExtension
    let e1 := { e with rootMidi := clampedRoot, chordExtension := chordExtension,
                       chordQuality := chordQuality }
    let newOscillatorCount := getOscillatorCount chordExtension
    if e.isPlaying = true ∧ oldOscillatorCount ≠ newOscillatorCount then
      { e1 with oscillators :=
          (getChordFrequencies clampedRoot chordExtension chordQuality).map (fun freq =>
            applyWaveform e1
              { frequency := { value := freq, schedule := [] }
                waveform := Waveform.sawtooth }
              e.currentWaveformMorph) }
    else if e.isPlaying = true ∧ e.oscillators.length = newOscillatorCount then
      let newFrequencies := getChordFrequencies clampedRoot chordExtension chordQuality
      let t := if e.audioContext then now else 0
      { e1 with oscillators :=
          e.oscillators.mapIdx (fun index osc =>
            if index < newFrequencies.length then
              { osc with frequency :=
                  osc.frequency.linearRampToValueAtTime (newFrequencies.getD index 0) (t + 0.05) }
            else osc) }
    else e1

/-- `getBaseCutoff`: the centerpoint between the cutoff bounds. -/
def getBaseCutoff (e : SynthEngine) : ℝ :=
  (e.minCutoff + e.maxCutoff) / 2

/-- `getActualFilterFrequency`: the instantaneous filter cutoff
`centerpoint + sin(2π · lfoRate · elapsed) · depthAmplitude`; falls back to
the base cutoff without an audio context. -/
def getActualFilterFrequency (e : SynthEngine) (time : ℝ) : ℝ :=
  if e.audioContext = false then getBaseCutoff e
  else
    let elapsed := time - e.lfoStartTime
    let lfoPhase := Real.sin (2 * Real.pi * e.currentLfoRate * elapsed)
    let range := e.maxCutoff - e.minCutoff
    let depth := (range * e.lfoDepth) / 2
    let baseCutoff := (e.minCutoff + e.maxCutoff) / 2
    baseCutoff + lfoPhase * depth

/-- `fadeOut(duration?)`: when not already frozen, ramp the LFO depth gain to
0 and the centerpoint offset to the instantaneous actual filter frequency
over the fade time, marking the LFO frozen; always ramp the master gain to 0
over the fade time.  No-op before initialization. -/
def fadeOut (e : SynthEngine) (duration : Option ℝ) (now : ℝ) : SynthEngine :=
  match e.gainNode, e.audioContext, e.filter with
  | some gain, true, some _ =>
    let fadeTime := duration.getD e.fadeDuration
    let e1 :=
      if e.isLfoFrozen = false then
        match e.lfoGain, e.lfoOffset with
        | some lfoGain, some lfoOffset =>
          let currentFreq := getActualFilterFrequency e now
          let lfoGain' :=
            ((lfoGain.cancelScheduledValues now).setValueAtTime lfoGain.value now).linearRampToValueAtTime
              0 (now + fadeTime)
          let lfoOffset' :=
            ((lfoOffset.cancelScheduledValues now).setValueAtTime lfoOffset.value now).linearRampToValueAtTime
              currentFreq (now + fadeTime)
          { e with lfoGain := some lfoGain', lfoOffset := some lfoOffset', isLfoFrozen := true }
        | _, _ => e
      else e
    let gain' :=
      ((gain.cancelScheduledValues now).setValueAtTime gain.value now).linearRampToValueAtTime
        0 (now + fadeTime)
    { e1 with gainNode := some gain' }
  | _, _, _ => e

/-- `fadeIn(duration?)`: when frozen, ramp the centerpoint offset back to
`(min + max) / 2` and the depth gain back to its target amplitude over the
fade time, un-freezing; always ramp the master gain to the target volume
over the fade time.  No-op before initialization. -/
def fadeIn (e : SynthEngine) (duration : Option ℝ) (now : ℝ) : SynthEngine :=
  match e.gainNode, e.audioContext, e.filter with
  | some gain, true, some _ =>
    let fadeTime := duration.getD e.fadeDuration
    let e1 :=
      if e.isLfoFrozen = true then
        match e.lfoGain, e.lfoOffset with
        | some lfoGain, some lfoOffset =>
          let baseCutoff := (e.minCutoff + e.maxCutoff) / 2
          let lfoOffset' :=
            ((lfoOffset.cancelScheduledValues now).setValueAtTime lfoOffset.value now).linearRampToValueAtTime
              baseCutoff (now + fadeTime)
          let range := e.maxCutoff - e.minCutoff
          let depth := (range * e.lfoDepth) / 2
          let lfoGain' :=
            ((lfoGain.cancelScheduledValues now).setValueAtTime lfoGain.value now).linearRampToValueAtTime
              depth (now + fadeTime)
          { e with lfoOffset := some lfoOffset', lfoGain := some lfoGain', isLfoFrozen := false }
        | _, _ => e
      else e
    let gain' :=
      ((gain.cancelScheduledValues now).setValueAtTime gain.value now).linearRampToValueAtTime
        e.targetVolume (now + fadeTime)
    { e1 with gainNode := some gain' }
  | _, _, _ => e

/-- `setMaxFilterCutoff(v)`: clamp to `[minCutoff + 100, 20000]`, store, and
refresh the LFO depth and offset ramps. -/
def setMaxFilterCutoff (e : SynthEngine) (maxCutoff : ℝ) (now : ℝ) : SynthEngine :=
  let clampedMax := max (e.minCutoff + 100) (min 20000 maxCutoff)
  updateLfoOffset (updateLfoDepth { e with maxCutoff := clampedMax } now) now

/-- `setLfoRate(rate)`: no-op when the LFO node is missing; otherwise clamp
to [0.1, 7], store, and ramp the LFO frequency over 100 ms. -/
def setLfoRate (e : SynthEngine) (rate : ℝ) (now : ℝ) : SynthEngine :=
  match e.lfo with
  | none => e
  | some lfo =>
    let clampedRate := max 0.1 (min 7 rate)
    let t := if e.audioContext then now else 0
    { e with currentLfoRate := clampedRate
             lfo := some (lfo.linearRampToValueAtTime clampedRate (t + 0.1)) }

/-- `setLfoDepth(depth)`: clamp to [0.1, 1.0], store, and refresh the LFO
depth ramp. -/
def setLfoDepth (e : SynthEngine) (depth : ℝ) (now : ℝ) : SynthEngine :=
  let clampedDepth := max 0.1 (min 1.0 depth)
  updateLfoDepth { e with lfoDepth := clampedDepth } now

/-- The interval tables exactly as the specification document states them:
SEVENTH-MINOR, SEVENTH-MAJOR, NINTH-MINOR, NINTH-MAJOR. -/
def specIntervals (chordExtension : ℕ) (chordQuality : Quality) : List ℤ :=
  if chordExtension = 9 then
    if chordQuality = Quality.minor then [0, 3, 7, 10, 14] else [0, 4, 7, 11, 14]
  else
    if chordQuality = Quality.minor then [0, 3, 7, 10] else [0, 4, 7, 11]

/-- The triangle-wave harmonic amplitude exactly as the specification's claim
writes it: `(8 / (π² · i²)) · (-1)^((i-1)/2)` at odd `i`, 0 at even `i`. -/
def specTriangleCoeff (i : ℕ) : ℝ :=
  if i % 2 = 1 then (8 / (Real.pi ^ 2 * (i : ℝ) ^ 2)) * (-1 : ℝ) ^ ((i - 1) / 2) else 0

/-- The LFO rate the gesture mapper requests from the smoothed right-hand X
position (`App.tsx`): `minLfoRate * (maxLfoRate / minLfoRate)^x` with
`minLfoRate = 1` and `maxLfoRate = 1000`. -/
def calculatedLfoRate (normalizedX : ℝ) : ℝ :=
  let minLfoRate : ℝ := 1
  let maxLfoRate : ℝ := 1000.0
  minLfoRate * (maxLfoRate / minLfoRate) ^ normalizedX

/-- A throwaway oscillator used to exercise waveform assignment. -/
def testOsc : OscillatorNode :=
  { frequency := { value := 0, schedule := [] }, waveform := Waveform.sawtooth }

/-- The per-frame hand booleans the pitch-control effect in `App.tsx` reads. -/
structure HandsFrame where
  rightHandDetected : Bool
  leftHandDetected : Bool
  rightHandPinchUp : Bool
  leftHandPinchDown : Bool
  rightHandPinchPinky : Bool
  leftHandPinchPinky : Bool
deriving DecidableEq

/-- The mutable refs of the pitch-control effect: the previous-frame pinch
states used for rising-edge detection and the debounce timestamp (ms). -/
structure PitchRefs where
  previousRightPinchUp : Bool
  previousLeftPinchDown : Bool
  previousRightPinchPinky : Bool
  previousLeftPinchPinky : Bool
  lastPitchChangeTime : ℤ
deriving DecidableEq

/-- What one evaluation of the pitch-control effect produces: the new React
state, the updated refs, and the `synth.setChord` call it issued (if any). -/
structure PitchOutcome where
  rootMidi : ℤ
  chordQuality : Quality
  pitchMode : Bool
  refs : PitchRefs
  chordCall : Option (ℤ × ℕ × Quality)
deriving DecidableEq

/-- Debounce window for pitch changes, in milliseconds. -/
def PITCH_CHANGE_DEBOUNCE_MS : ℤ := 500

/-- One evaluation of the pitch-control pinch-gesture effect in `App.tsx`:
rising-edge detection on four pinch signals, a shared debounce, the
priority chain (+2 right, -2 left, +1 right gated by the right pinky,
-1 left gated by the left pinky, where the one-semitone branches also toggle
the chord quality), the previous-state updates, and the pitch-mode exit. -/
def pitchControlEffect (isPlaying : Bool) (h : HandsFrame) (refs : PitchRefs)
    (now rootMidi : ℤ) (chordExtension : ℕ) (chordQuality : Quality)
    (pitchMode : Bool) : PitchOutcome :=
  if isPlaying = false then
    { rootMidi := rootMidi, chordQuality := chordQuality, pitchMode := pitchMode,
      refs := refs, chordCall := none }
  else
    let timeSinceLastChange := now - refs.lastPitchChangeTime
    let canChangePitch : Bool := decide (PITCH_CHANGE_DEBOUNCE_MS ≤ timeSinceLastChange)
    let rightPinchUpJustActivated : Bool :=
      h.rightHandDetected && h.rightHandPinchUp && !refs.previousRightPinchUp
    let leftPinchDownJustActivated : Bool :=
      h.leftHandDetected && h.leftHandPinchDown && !refs.previousLeftPinchDown
    let rightPinchPinkyJustActivated : Bool :=
      h.rightHandDetected && h.rightHandPinchPinky && !refs.previousRightPinchPinky
    let leftPinchPinkyJustActivated : Bool :=
      h.leftHandDetected && h.leftHandPinchPinky && !refs.previousLeftPinchPinky
    let step : ℤ × Quality × Bool × ℤ × Option (ℤ × ℕ × Quality) :=
      if rightPinchPinkyJustActivated && canChangePitch then
        let newRootMidi := min 84 (rootMidi + 2)
        (newRootMidi, chordQuality, true, now, some (newRootMidi, chordExtension, chordQuality))
      else if leftPinchPinkyJustActivated && canChangePitch then
        let newRootMidi := max 36 (rootMidi - 2)
        (newRootMidi, chordQuality, true, now, some (newRootMidi, chordExtension, chordQuality))
      else if rightPinchUpJustActivated && canChangePitch && !h.rightHandPinchPinky then
        let newRootMidi := min 84 (rootMidi + 1)
        let newQuality := if chordQuality = Quality.minor then Quality.major else Quality.minor
        (newRootMidi, newQuality, true, now, some (newRootMidi, chordExtension, newQuality))
      else if leftPinchDownJustActivated && canChangePitch && !h.leftHandPinchPinky then
        let newRootMidi := max 36 (rootMidi - 1)
        let newQuality := if chordQuality = Quality.minor then Quality.major else Quality.minor
        (newRootMidi, newQuality, true, now, some (newRootMidi, chordExtension, newQuality))
      else (rootMidi, chordQuality, pitchMode, refs.lastPitchChangeTime, none)
    match step with
    | (newRoot, newQuality, newPitchMode, newLastTime, call) =>
      let refs' : PitchRefs :=
        { previousRightPinchUp := h.rightHandDetected && h.rightHandPinchUp
          previousLeftPinchDown := h.leftHandDetected && h.leftHandPinchDown
          previousRightPinchPinky := h.rightHandDetected && h.rightHandPinchPinky
          previousLeftPinchPinky := h.leftHandDetected && h.leftHandPinchPinky
          lastPitchChangeTime := newLastTime }
      let pitchModeAfter : Bool :=
        if (!h.rightHandDetected || (!h.rightHandPinchUp && !h.rightHandPinchPinky)) &&
            (!h.leftHandDetected || (!h.leftHandPinchDown && !h.leftHandPinchPinky)) then
          false
        else newPitchMode
      { rootMidi := newRoot, chordQuality := newQuality, pitchMode := pitchModeAfter,
        refs := refs', chordCall := call }

/-- C1: for any root in [36,84] and any extension in {7, 9}, the chord
frequency computation returns exactly `getOscillatorCount` frequencies
(4 for a seventh, 5 for a ninth) and each one equals
`440 * 2^((root + interval - 69) / 12)` over the documented interval table. -/
theorem chordFrequencyTable (root : ℤ) (_h36 : 36 ≤ root) (_h84 : root ≤ 84)
    (ext : ℕ) (q : Quality) (hext : ext = 7 ∨ ext = 9) :
    getChordFrequencies root ext q
      = (specIntervals ext q).map
          (fun interval => 440 * (2 : ℝ) ^ ((((root + interval : ℤ) : ℝ) - 69) / 12)) ∧
    (getChordFrequencies root ext q).length = getOscillatorCount ext ∧
    getOscillatorCount 7 = 4 ∧ getOscillatorCount 9 = 5 := by
  rcases hext with h | h <;> subst h <;>
    cases q <;>
      simp [getChordFrequencies, specIntervals, getOscillatorCount]

/-- Concrete instance of `chordFrequencyTable` at the default chord
(root 48, seventh, minor): four voices. -/
theorem chordFrequencyTableWitness :
    (getChordFrequencies 48 7 Quality.minor).length = getOscillatorCount 7 :=
  (chordFrequencyTable 48 (by norm_num) (by norm_num) 7 Quality.minor (Or.inl rfl)).2.1

/-- After any `setChord` call the stored chord is the clamped root together
with the requested extension and quality. -/
theorem setChord_storedChord (e : SynthEngine) (r : ℤ) (x : ℕ) (q : Quality) (t : ℝ) :
    (setChord e r x q t).rootMidi = max 36 (min 84 r) ∧
    (setChord e r x q t).chordExtension = x ∧
    (setChord e r x q t).chordQuality = q := by
  simp only [setChord]
  by_cases hc : e.rootMidi = max 36 (min 84 r) ∧ e.chordExtension = x ∧ e.chordQuality = q
  · simp only [if_pos hc]
    exact ⟨hc.1, hc.2.1, hc.2.2⟩
  · simp only [if_neg hc]
    by_cases hp1 : e.isPlaying = true ∧ getOscillatorCount e.chordExtension ≠ getOscillatorCount x
    · simp only [if_pos hp1]
      simp
    · simp only [if_neg hp1]
      by_cases hp2 : e.isPlaying = true ∧ e.oscillators.length = getOscillatorCount x
      · simp only [if_pos hp2]
        simp
      · simp only [if_neg hp2]
        simp

/-- A `setChord` call whose clamped root, extension and quality all match the
stored chord returns the engine unchanged. -/
theorem setChord_noChange (e : SynthEngine) (r : ℤ) (x : ℕ) (q : Quality) (t : ℝ)
    (h1 : e.rootMidi = max 36 (min 84 r)) (h2 : e.chordExtension = x)
    (h3 : e.chordQuality = q) : setChord e r x q t = e := by
  unfold setChord
  rw [if_pos ⟨h1, h2, h3⟩]

/-- C9: `setChord` is idempotent — a second call with identical arguments
leaves the engine exactly as the first call left it (no oscillator
reconstruction, no ramp scheduling), and any call whose clamped root,
extension and quality equal the stored chord state is a complete no-op. -/
theorem setChordIdempotent :
    (∀ (e : SynthEngine) (r : ℤ) (x : ℕ) (q : Quality) (t1 t2 : ℝ),
        setChord (setChord e r x q t1) r x q t2 = setChord e r x q t1) ∧
    (∀ (e : SynthEngine) (r : ℤ) (x : ℕ) (q : Quality) (t : ℝ),
        e.rootMidi = max 36 (min 84 r) → e.chordExtension = x → e.chordQuality = q →
        setChord e r x q t = e) := by
  constructor
  · intro e r x q t1 t2
    obtain ⟨h1, h2, h3⟩ := setChord_storedChord e r x q t1
    exact setChord_noChange _ r x q t2 h1 h2 h3
  · intro e r x q t h1 h2 h3
    exact setChord_noChange e r x q t h1 h2 h3

/-- Concrete instance of `setChordIdempotent`: re-setting the default chord
on a fresh engine changes nothing. -/
theorem setChordIdempotentWitness :
    setChord defaultEngine 48 7 Quality.minor 0 = defaultEngine :=
  setChordIdempotent.2 defaultEngine 48 7 Quality.minor 0 (by decide) rfl rfl

/-- C10: `initialize()` is idempotent — on an engine whose audio context
already exists it returns immediately and leaves every field unchanged. -/
theorem initEngineIdempotent (e : SynthEngine) (now : ℝ) (h : e.audioContext = true) :
    initEngine e now = e := by
  simp [initEngine, h]

/-- Concrete instance of `initEngineIdempotent`: initializing twice equals
initializing once. -/
theorem initEngineIdempotentWitness :
    initEngine (initEngine defaultEngine 0) 5 = initEngine defaultEngine 0 :=
  initEngineIdempotent (initEngine defaultEngine 0) 5 rfl


/-- C8: in the pitch-control effect, a two-semitone (thumb-pinky) rising edge
takes priority over a simultaneous one-semitone (thumb-index) rising edge on
the same hand — only the two-semitone change is applied and the chord
quality is untouched (right-hand and left-hand cases) — and every debounced
one-semitone trigger toggles the chord quality exactly once (right-hand and
left-hand cases). -/
theorem pinchPriorityAndQualityToggle :
    (∀ (h : HandsFrame) (refs : PitchRefs) (now root : ℤ) (ext : ℕ) (q : Quality)
        (mode : Bool),
        h.rightHandDetected = true → h.rightHandPinchPinky = true →
        refs.previousRightPinchPinky = false →
        h.rightHandPinchUp = true → refs.previousRightPinchUp = false →
        PITCH_CHANGE_DEBOUNCE_MS ≤ now - refs.lastPitchChangeTime →
        (pitchControlEffect true h refs now root ext q mode).rootMidi = min 84 (root + 2) ∧
        (pitchControlEffect true h refs now root ext q mode).chordQuality = q ∧
        (pitchControlEffect true h refs now root ext q mode).chordCall
          = some (min 84 (root + 2), ext, q)) ∧
    (∀ (h : HandsFrame) (refs : PitchRefs) (now root : ℤ) (ext : ℕ) (q : Quality)
        (mode : Bool),
        h.rightHandDetected = false →
        h.leftHandDetected = true → h.leftHandPinchPinky = true →
        refs.previousLeftPinchPinky = false →
        h.leftHandPinchDown = true → refs.previousLeftPinchDown = false →
        PITCH_CHANGE_DEBOUNCE_MS ≤ now - refs.lastPitchChangeTime →
        (pitchControlEffect true h refs now root ext q mode).rootMidi = max 36 (root - 2) ∧
        (pitchControlEffect true h refs now root ext q mode).chordQuality = q ∧
        (pitchControlEffect true h refs now root ext q mode).chordCall
          = some (max 36 (root - 2), ext, q)) ∧
    (∀ (h : HandsFrame) (refs : PitchRefs) (now root : ℤ) (ext : ℕ) (q : Quality)
        (mode : Bool),
        h.rightHandDetected = true → h.rightHandPinchUp = true →
        refs.previousRightPinchUp = false →
        h.rightHandPinchPinky = false → h.leftHandPinchPinky = false →
        PITCH_CHANGE_DEBOUNCE_MS ≤ now - refs.lastPitchChangeTime →
        (pitchControlEffect true h refs now root ext q mode).rootMidi = min 84 (root + 1) ∧
        (pitchControlEffect true h refs now root ext q mode).chordQuality
          = (if q = Quality.minor then Quality.major else Quality.minor) ∧
        (pitchControlEffect true h refs now root ext q mode).chordQuality ≠ q) ∧
    (∀ (h : HandsFrame) (refs : PitchRefs) (now root : ℤ) (ext : ℕ) (q : Quality)
        (mode : Bool),
        h.rightHandDetected = false →
        h.leftHandDetected = true → h.leftHandPinchDown = true →
        refs.previousLeftPinchDown = false → h.leftHandPinchPinky = false →
        PITCH_CHANGE_DEBOUNCE_MS ≤ now - refs.lastPitchChangeTime →
        (pitchControlEffect true h refs now root ext q mode).rootMidi = max 36 (root - 1) ∧
        (pitchControlEffect true h refs now root ext q mode).chordQuality
          = (if q = Quality.minor then Quality.major else Quality.minor) ∧
        (pitchControlEffect true h refs now root ext q mode).chordQuality ≠ q) := by
  refine ⟨?_, ?_, ?_, ?_⟩
  · intro h refs now root ext q mode h1 h2 h3 h4 h5 hdeb
    simp only [PITCH_CHANGE_DEBOUNCE_MS] at hdeb
    simp [pitchControlEffect, PITCH_CHANGE_DEBOUNCE_MS, h1, h2, h3, h4, h5, hdeb]
  · intro h refs now root ext q mode h0 h1 h2 h3 h4 h5 hdeb
    simp only [PITCH_CHANGE_DEBOUNCE_MS] at hdeb
    simp [pitchControlEffect, PITCH_CHANGE_DEBOUNCE_MS, h0, h1, h2, h3, h4, h5, hdeb]
  · intro h refs now root ext q mode h1 h2 h3 h4 h5 hdeb
    simp only [PITCH_CHANGE_DEBOUNCE_MS] at hdeb
    cases q <;>
      simp [pitchControlEffect, PITCH_CHANGE_DEBOUNCE_MS, h1, h2, h3, h4, h5, hdeb]
  · intro h refs now root ext q mode h0 h1 h2 h3 h4 hdeb
    simp only [PITCH_CHANGE_DEBOUNCE_MS] at hdeb
    cases q <;>
      simp [pitchControlEffect, PITCH_CHANGE_DEBOUNCE_MS, h0, h1, h2, h3, h4, hdeb]

/-- Concrete instances of `pinchPriorityAndQualityToggle`: a right-hand
double rising edge leaves the quality alone, and a lone right-hand
one-semitone pinch toggles it. -/
theorem pinchPriorityAndQualityToggleWitness :
    (pitchControlEffect true
        { rightHandDetected := true, leftHandDetected := false, rightHandPinchUp := true,
          leftHandPinchDown := false, rightHandPinchPinky := true, leftHandPinchPinky := false }
        { previousRightPinchUp := false, previousLeftPinchDown := false,
          previousRightPinchPinky := false, previousLeftPinchPinky := false,
          lastPitchChangeTime := 0 }
        1000 48 7 Quality.minor false).chordQuality = Quality.minor ∧
    (pitchControlEffect true
        { rightHandDetected := true, leftHandDetected := false, rightHandPinchUp := true,
          leftHandPinchDown := false, rightHandPinchPinky := false, leftHandPinchPinky := false }
        { previousRightPinchUp := false, previousLeftPinchDown := false,
          previousRightPinchPinky := false, previousLeftPinchPinky := false,
          lastPitchChangeTime := 0 }
        1000 48 7 Quality.minor false).chordQuality ≠ Quality.minor :=
  ⟨(pinchPriorityAndQualityToggle.1 _ _ 1000 48 7 Quality.minor false
      rfl rfl rfl rfl rfl (by decide)).2.1,
   (pinchPriorityAndQualityToggle.2.2.1 _ _ 1000 48 7 Quality.minor false
      rfl rfl rfl rfl rfl (by decide)).2.2⟩

/-- C7: the mapper's exponential right-hand-X curve can request rates up to
1000 Hz, yet after any `setLfoRate` call on an engine whose LFO exists, the
stored rate and the scheduled ramp target both lie within [0.1, 7] Hz. -/
theorem lfoRateAlwaysClamped :
    (∀ x : ℝ, 0 ≤ x → x ≤ 1 →
        1 ≤ calculatedLfoRate x ∧ calculatedLfoRate x ≤ 1000) ∧
    (∀ (e : SynthEngine) (lfo : AudioParam) (rate now : ℝ), e.lfo = some lfo →
        (0.1 ≤ (setLfoRate e rate now).currentLfoRate ∧
          (setLfoRate e rate now).currentLfoRate ≤ 7) ∧
        (setLfoRate e rate now).lfo
          = some { value := lfo.value
                   schedule := lfo.schedule ++
                     [ParamEvent.linearRamp (max 0.1 (min 7 rate))
                       ((if e.audioContext then now else 0) + 0.1)] } ∧
        0.1 ≤ max 0.1 (min 7 rate) ∧ max 0.1 (min 7 rate) ≤ 7) := by
  have hb : ∀ rate : ℝ, 0.1 ≤ max 0.1 (min 7 rate) ∧ max 0.1 (min 7 rate) ≤ 7 := by
    intro rate
    exact ⟨le_max_left _ _, max_le (by norm_num) (min_le_left _ _)⟩
  constructor
  · intro x hx0 hx1
    simp only [calculatedLfoRate]
    norm_num
    constructor
    · calc (1 : ℝ) = (1000 : ℝ) ^ (0 : ℝ) := (Real.rpow_zero _).symm
        _ ≤ (1000 : ℝ) ^ x := Real.rpow_le_rpow_of_exponent_le (by norm_num) hx0
    · calc (1000 : ℝ) ^ x ≤ (1000 : ℝ) ^ (1 : ℝ) :=
          Real.rpow_le_rpow_of_exponent_le (by norm_num) hx1
        _ = 1000 := Real.rpow_one _
  · intro e lfo rate now hl
    refine ⟨?_, ?_, hb rate⟩
    · simpa [setLfoRate, hl] using hb rate
    · simp [setLfoRate, hl, AudioParam.linearRampToValueAtTime]

/-- Concrete instances of `lfoRateAlwaysClamped`: the mapper can request
1000 Hz (at `x = 1`), and the engine still stores a rate within bounds. -/
theorem lfoRateAlwaysClampedWitness :
    calculatedLfoRate 1 ≤ 1000 ∧
    (setLfoRate (initEngine defaultEngine 0) 1000 0).currentLfoRate ≤ 7 :=
  ⟨(lfoRateAlwaysClamped.1 1 (by norm_num) (by norm_num)).2,
   (lfoRateAlwaysClamped.2 (initEngine defaultEngine 0) _ 1000 0 rfl).1.2⟩

/-- Reading an index below `n` out of `(List.range n).map f` yields `f i`. -/
theorem rangeMapGetD (n i : ℕ) (f : ℕ → ℝ) (h : i < n) :
    ((List.range n).map f).getD i 0 = f i := by
  rw [List.getD_eq_getElem?_getD, List.getElem?_map, List.getElem?_range h]
  rfl

/-- C6: the waveform morph snaps to native sawtooth at `morph ≤ 0.05` and to
native triangle at `morph ≥ 0.95`; strictly in between it installs the
32-harmonic table with all real parts zero, imaginary coefficient 0 at
harmonic 0 and 1 at harmonic 1, and `(1/i)·(1-morph) + t(i)·morph` at every
harmonic `2 ≤ i < 32`, where `t` is the claimed triangle series; at the
morph endpoints the blend degenerates to the sawtooth series `1/i`
respectively to zero on even harmonics. -/
theorem waveformMorphBlend :
    (∀ (e : SynthEngine) (osc : OscillatorNode) (morph : ℝ), morph ≤ 0.05 →
        (applyWaveform e osc morph).waveform = Waveform.sawtooth) ∧
    (∀ (e : SynthEngine) (osc : OscillatorNode) (morph : ℝ), 0.95 ≤ morph →
        (applyWaveform e osc morph).waveform = Waveform.triangle) ∧
    (∀ (e : SynthEngine) (osc : OscillatorNode) (morph : ℝ), e.audioContext = true →
        0.05 < morph → morph < 0.95 →
        (applyWaveform e osc morph).waveform
          = Waveform.periodicWave customWaveReal (customWaveImag morph)) ∧
    customWaveReal = List.replicate 32 0 ∧
    (∀ morph : ℝ, (customWaveImag morph).length = 32 ∧
        (customWaveImag morph).getD 0 0 = 0 ∧ (customWaveImag morph).getD 1 0 = 1) ∧
    (∀ (morph : ℝ) (i : ℕ), 2 ≤ i → i < 32 →
        (customWaveImag morph).getD i 0
          = (1 / (i : ℝ)) * (1 - morph) + specTriangleCoeff i * morph) ∧
    (∀ i : ℕ, 2 ≤ i → customWaveCoeff 0 i = 1 / (i : ℝ)) ∧
    (∀ i : ℕ, 2 ≤ i → i % 2 = 0 → customWaveCoeff 1 i = 0) := by
  have hcoeff : ∀ (morph : ℝ) (i : ℕ), 2 ≤ i →
      customWaveCoeff morph i
        = (1 / (i : ℝ)) * (1 - morph) + specTriangleCoeff i * morph := by
    intro morph i h2
    have h0 : i ≠ 0 := by omega
    have h1 : i ≠ 1 := by omega
    by_cases hodd : i % 2 = 1
    · have hππ : Real.pi * Real.pi * (i : ℝ) * (i : ℝ) = Real.pi ^ 2 * (i : ℝ) ^ 2 := by
        ring
      simp [customWaveCoeff, specTriangleCoeff, h0, h1, hodd, hππ]
    · simp [customWaveCoeff, specTriangleCoeff, h0, h1, hodd]
  refine ⟨?_, ?_, ?_, ?_, ?_, ?_, ?_, ?_⟩
  · intro e osc morph hm
    simp [applyWaveform, hm]
  · intro e osc morph hm
    have hn : ¬ morph ≤ 0.05 := by linarith
    have h2 : (1 : ℝ) - 0.05 ≤ morph := by linarith
    simp [applyWaveform, hn, h2]
  · intro e osc morph hctx hlo hhi
    have hn1 : ¬ morph ≤ 0.05 := by linarith
    have hn2 : ¬ (1 : ℝ) - 0.05 ≤ morph := by linarith
    simp [applyWaveform, setCustomWaveform, hctx, hn1, hn2]
  · rfl
  · intro morph
    refine ⟨by simp [customWaveImag], ?_, ?_⟩
    · rw [customWaveImag, rangeMapGetD 32 0 _ (by norm_num)]
      simp [customWaveCoeff]
    · rw [customWaveImag, rangeMapGetD 32 1 _ (by norm_num)]
      simp [customWaveCoeff]
  · intro morph i h2 h32
    rw [customWaveImag, rangeMapGetD 32 i _ h32]
    exact hcoeff morph i h2
  · intro i h2
    rw [hcoeff 0 i h2]
    ring
  · intro i h2 heven
    have hodd : ¬ i % 2 = 1 := by omega
    rw [hcoeff 1 i h2]
    simp [specTriangleCoeff, hodd]

/-- Concrete instances of `waveformMorphBlend`: the two snap regimes, the
custom table in the middle, and the harmonic-2 coefficient formula. -/
theorem waveformMorphBlendWitness :
    (applyWaveform defaultEngine testOsc 0).waveform = Waveform.sawtooth ∧
    (applyWaveform defaultEngine testOsc 1).waveform = Waveform.triangle ∧
    (applyWaveform (initEngine defaultEngine 0) testOsc 0.5).waveform
      = Waveform.periodicWave customWaveReal (customWaveImag 0.5) ∧
    (customWaveImag 0.5).getD 2 0
      = (1 / (2 : ℝ)) * (1 - 0.5) + specTriangleCoeff 2 * 0.5 ∧
    customWaveCoeff 0 2 = 1 / (2 : ℝ) ∧
    customWaveCoeff 1 2 = 0 :=
  ⟨waveformMorphBlend.1 defaultEngine testOsc 0 (by norm_num),
   waveformMorphBlend.2.1 defaultEngine testOsc 1 (by norm_num),
   waveformMorphBlend.2.2.1 (initEngine defaultEngine 0) testOsc 0.5 rfl
     (by norm_num) (by norm_num),
   waveformMorphBlend.2.2.2.2.2.1 0.5 2 (by norm_num) (by norm_num),
   waveformMorphBlend.2.2.2.2.2.2.1 2 (by norm_num),
   waveformMorphBlend.2.2.2.2.2.2.2 2 (by norm_num) (by norm_num)⟩

/-- C2: on an initialized, not-yet-frozen engine, `fadeOut` leaves the LFO
depth gain with a ramp to 0 and the centerpoint offset with a simultaneous
ramp to the instantaneous actual filter frequency
`centerpoint + depthAmplitude · sin(2π · lfoRate · elapsed)`, both ending at
`now + duration` (where the duration defaults to the stored fade duration,
3.0 s on a fresh engine); it marks the LFO frozen, ramps the master gain to
0 over the same duration, and leaves the oscillator list and the playing
flag untouched. -/
theorem fadeOutFreezesLfoContinuously (e : SynthEngine) (duration : Option ℝ) (now : ℝ)
    {gain lfoGain lfoOffset : AudioParam} {f : BiquadFilterNode}
    (hg : e.gainNode = some gain) (hctx : e.audioContext = true)
    (hf : e.filter = some f) (hlg : e.lfoGain = some lfoGain)
    (hlo : e.lfoOffset = some lfoOffset) (hfr : e.isLfoFrozen = false) :
    (fadeOut e duration now).lfoGain
      = some { value := lfoGain.value
               schedule := [ParamEvent.setValue lfoGain.value now,
                 ParamEvent.linearRamp 0 (now + duration.getD e.fadeDuration)] } ∧
    (fadeOut e duration now).lfoOffset
      = some { value := lfoOffset.value
               schedule := [ParamEvent.setValue lfoOffset.value now,
                 ParamEvent.linearRamp
                   ((e.minCutoff + e.maxCutoff) / 2 +
                     ((e.maxCutoff - e.minCutoff) * e.lfoDepth / 2) *
                       Real.sin (2 * Real.pi * e.currentLfoRate * (now - e.lfoStartTime)))
                   (now + duration.getD e.fadeDuration)] } ∧
    (fadeOut e duration now).isLfoFrozen = true ∧
    (fadeOut e duration now).gainNode
      = some { value := gain.value
               schedule := [ParamEvent.setValue gain.value now,
                 ParamEvent.linearRamp 0 (now + duration.getD e.fadeDuration)] } ∧
    (fadeOut e duration now).oscillators = e.oscillators ∧
    (fadeOut e duration now).isPlaying = e.isPlaying ∧
    defaultEngine.fadeDuration = 3 := by
  have hfreq : getActualFilterFrequency e now
      = (e.minCutoff + e.maxCutoff) / 2 +
        ((e.maxCutoff - e.minCutoff) * e.lfoDepth / 2) *
          Real.sin (2 * Real.pi * e.currentLfoRate * (now - e.lfoStartTime)) := by
    rw [getActualFilterFrequency, if_neg (by simp [hctx])]
    ring
  refine ⟨?_, ?_, ?_, ?_, ?_, ?_, by norm_num [defaultEngine]⟩ <;>
    simp [fadeOut, hg, hctx, hf, hlg, hlo, hfr, hfreq,
      AudioParam.cancelScheduledValues, AudioParam.setValueAtTime,
      AudioParam.linearRampToValueAtTime]

/-- Concrete instance of `fadeOutFreezesLfoContinuously`: fading out a
freshly initialized engine freezes the LFO. -/
theorem fadeOutFreezesLfoContinuouslyWitness :
    (fadeOut (initEngine defaultEngine 0) none 0).isLfoFrozen = true :=
  (fadeOutFreezesLfoContinuously (initEngine defaultEngine 0) none 0
    rfl rfl rfl rfl rfl rfl).2.2.1

/-- On an engine that is not frozen, `fadeIn` leaves the LFO depth gain and
centerpoint offset untouched and the engine unfrozen. -/
theorem fadeInNotFrozenKeepsLfo (e : SynthEngine) (duration : Option ℝ) (now : ℝ)
    (hfr : e.isLfoFrozen = false) :
    (fadeIn e duration now).lfoGain = e.lfoGain ∧
    (fadeIn e duration now).lfoOffset = e.lfoOffset ∧
    (fadeIn e duration now).isLfoFrozen = false := by
  refine ⟨?_, ?_, ?_⟩ <;>
  · unfold fadeIn
    split <;> simp [hfr]

/-- C3: fading out and then immediately fading back in (zero elapsed time)
leaves the centerpoint-offset ramp targeting `(min + max) / 2` and the
depth-gain ramp targeting `(max - min) · lfoDepth / 2`, with the engine
unfrozen; those two targets reproduce the pre-freeze instantaneous cutoff,
since `(min+max)/2 + ((max-min)·lfoDepth/2) · sin(2π·rate·elapsed)` is
exactly the actual filter frequency at the freeze moment; and `fadeIn`'s
freeze-restoration step is a no-op on any engine that is not frozen. -/
theorem freezeUnfreezeContinuity (e : SynthEngine) (duration : Option ℝ) (now : ℝ)
    {gain lfoGain lfoOffset : AudioParam} {f : BiquadFilterNode}
    (hg : e.gainNode = some gain) (hctx : e.audioContext = true)
    (hf : e.filter = some f) (hlg : e.lfoGain = some lfoGain)
    (hlo : e.lfoOffset = some lfoOffset) :
    (fadeIn (fadeOut e duration now) duration now).isLfoFrozen = false ∧
    (fadeIn (fadeOut e duration now) duration now).lfoOffset
      = some { value := lfoOffset.value
               schedule := [ParamEvent.setValue lfoOffset.value now,
                 ParamEvent.linearRamp ((e.minCutoff + e.maxCutoff) / 2)
                   (now + duration.getD e.fadeDuration)] } ∧
    (fadeIn (fadeOut e duration now) duration now).lfoGain
      = some { value := lfoGain.value
               schedule := [ParamEvent.setValue lfoGain.value now,
                 ParamEvent.linearRamp ((e.maxCutoff - e.minCutoff) * e.lfoDepth / 2)
                   (now + duration.getD e.fadeDuration)] } ∧
    ((e.minCutoff + e.maxCutoff) / 2 +
        ((e.maxCutoff - e.minCutoff) * e.lfoDepth / 2) *
          Real.sin (2 * Real.pi * e.currentLfoRate * (now - e.lfoStartTime))
      = getActualFilterFrequency e now) ∧
    (∀ e' : SynthEngine, e'.isLfoFrozen = false →
        (fadeIn e' duration now).lfoGain = e'.lfoGain ∧
        (fadeIn e' duration now).lfoOffset = e'.lfoOffset ∧
        (fadeIn e' duration now).isLfoFrozen = false) := by
  have hfreq : getActualFilterFrequency e now
      = (e.minCutoff + e.maxCutoff) / 2 +
        ((e.maxCutoff - e.minCutoff) * e.lfoDepth / 2) *
          Real.sin (2 * Real.pi * e.currentLfoRate * (now - e.lfoStartTime)) := by
    rw [getActualFilterFrequency, if_neg (by simp [hctx])]
    ring
  refine ⟨?_, ?_, ?_, hfreq.symm, fun e' h => fadeInNotFrozenKeepsLfo e' duration now h⟩ <;>
    by_cases hfr : e.isLfoFrozen <;>
      simp [fadeIn, fadeOut, hg, hctx, hf, hlg, hlo, hfr,
        AudioParam.cancelScheduledValues, AudioParam.setValueAtTime,
        AudioParam.linearRampToValueAtTime]

/-- Concrete instance of `freezeUnfreezeContinuity`: fade-out followed by an
immediate fade-in leaves a freshly initialized engine unfrozen. -/
theorem freezeUnfreezeContinuityWitness :
    (fadeIn (fadeOut (initEngine defaultEngine 0) none 0) none 0).isLfoFrozen = false :=
  (freezeUnfreezeContinuity (initEngine defaultEngine 0) none 0
    rfl rfl rfl rfl rfl).1

/-- C4 (amended): `start()` throws before initialization and is a no-op when
already playing; otherwise it sets the master gain to 0 at the call time,
creates exactly one oscillator per chord frequency — each with the fixed
native sawtooth waveform, not the current morph shape — and marks the
engine playing. -/
theorem startCreatesSawtoothVoices (e : SynthEngine) (now : ℝ) :
    ((e.audioContext = false ∨ e.filter = none ∨ e.gainNode = none) →
        start e now = Except.error startErrorMessage) ∧
    (e.audioContext = true → e.filter.isSome = true → e.gainNode.isSome = true →
      (e.isPlaying = true → start e now = Except.ok e) ∧
      (e.isPlaying = false →
        start e now = Except.ok { e with
          gainNode := some { value := 0, schedule := [ParamEvent.setValue 0 now] }
          oscillators :=
            (getChordFrequencies e.rootMidi e.chordExtension e.chordQuality).map
              (fun freq => { frequency := { value := freq, schedule := [] }
                             waveform := Waveform.sawtooth })
          isPlaying := true })) := by
  constructor
  · intro hbad
    rcases hc : e.audioContext <;> rcases hfil : e.filter with _ | f <;>
      rcases hgn : e.gainNode with _ | g <;>
        simp_all [start]
  · intro hctx hf hg
    rcases Option.isSome_iff_exists.mp hf with ⟨f, hf2⟩
    rcases Option.isSome_iff_exists.mp hg with ⟨g, hg2⟩
    constructor
    · intro hp
      simp [start, hctx, hf2, hg2, hp]
    · intro hp
      simp [start, hctx, hf2, hg2, hp,
        AudioParam.cancelScheduledValues, AudioParam.setValueAtTime]

/-- Concrete instances of `startCreatesSawtoothVoices`: a fresh engine
throws, and an initialized engine gets sawtooth voices and zeroed gain. -/
theorem startCreatesSawtoothVoicesWitness :
    start defaultEngine 0 = Except.error startErrorMessage ∧
    start (initEngine defaultEngine 0) 0
      = Except.ok { initEngine defaultEngine 0 with
          gainNode := some { value := 0, schedule := [ParamEvent.setValue 0 0] }
          oscillators :=
            (getChordFrequencies (initEngine defaultEngine 0).rootMidi
                (initEngine defaultEngine 0).chordExtension
                (initEngine defaultEngine 0).chordQuality).map
              (fun freq => { frequency := { value := freq, schedule := [] }
                             waveform := Waveform.sawtooth })
          isPlaying := true } :=
  ⟨(startCreatesSawtoothVoices defaultEngine 0).1 (Or.inl rfl),
   ((startCreatesSawtoothVoices (initEngine defaultEngine 0) 0).2 rfl rfl rfl).2 rfl⟩

/-- Counterexample to C4 as stated: on an initialized engine whose current
waveform morph is 1 (triangle), `start()` still creates all four voices with
the native sawtooth waveform, while the engine's own morph-applying routine
at morph 1 yields the triangle waveform — so the new oscillators are not
initialized to the current waveform-morph shape. -/
theorem startIgnoresMorphCounterexample :
    Except.map (fun e => e.oscillators.map OscillatorNode.waveform)
        (start { initEngine defaultEngine 0 with currentWaveformMorph := 1 } 0)
      = Except.ok [Waveform.sawtooth, Waveform.sawtooth, Waveform.sawtooth,
          Waveform.sawtooth] ∧
    ({ initEngine defaultEngine 0 with
        currentWaveformMorph := 1 } : SynthEngine).currentWaveformMorph = 1 ∧
    (applyWaveform { initEngine defaultEngine 0 with currentWaveformMorph := 1 }
        testOsc 1).waveform = Waveform.triangle ∧
    Waveform.sawtooth ≠ Waveform.triangle := by
  refine ⟨rfl, rfl, ?_, by simp⟩
  have h1 : ¬ (1 : ℝ) ≤ 0.05 := by norm_num
  have h2 : (1 : ℝ) - 0.05 ≤ 1 := by norm_num
  simp [applyWaveform, h1, h2]

/-- C5 (amended): on an engine that has not been initialized (no audio
context, no LFO nodes, not playing) the parameter setters signal no failure:
`setLfoRate` silently no-ops (it does not even store the clamped rate),
while `setMaxFilterCutoff`, `setLfoDepth`, `setChord` and
`setWaveformFromOpenness` silently mutate their stored parameters (with no
ramp ever scheduled, since the helper ramps guard on the missing nodes);
only `start()` refuses the operation by throwing. -/
theorem settersBeforeInitSilent (e : SynthEngine) (now rate v d o : ℝ) (r : ℤ)
    (x : ℕ) (q : Quality)
    (hctx : e.audioContext = false) (hlfo : e.lfo = none)
    (hp : e.isPlaying = false) :
    setLfoRate e rate now = e ∧
    setMaxFilterCutoff e v now
      = { e with maxCutoff := max (e.minCutoff + 100) (min 20000 v) } ∧
    setLfoDepth e d now = { e with lfoDepth := max 0.1 (min 1.0 d) } ∧
    (setChord e r x q now
      = if e.rootMidi = max 36 (min 84 r) ∧ e.chordExtension = x ∧ e.chordQuality = q
        then e
        else { e with rootMidi := max 36 (min 84 r), chordExtension := x,
                      chordQuality := q }) ∧
    (setWaveformFromOpenness e o
      = if |e.currentWaveformMorph - max 0 (min 1 o)| < 0.01 then e
        else { e with currentWaveformMorph := max 0 (min 1 o) }) ∧
    start e now = Except.error startErrorMessage := by
  refine ⟨?_, ?_, ?_, ?_, ?_, ?_⟩
  · simp [setLfoRate, hlfo]
  · unfold setMaxFilterCutoff updateLfoDepth updateLfoOffset
    rcases hlg : e.lfoGain with _ | lg <;> rcases hlo : e.lfoOffset with _ | lo <;>
      simp_all [hctx]
  · unfold setLfoDepth updateLfoDepth
    rcases hlg : e.lfoGain with _ | lg <;> simp_all [hctx]
  · by_cases hch : e.rootMidi = max 36 (min 84 r) ∧ e.chordExtension = x ∧
        e.chordQuality = q
    · simp [setChord, hch]
    · simp [setChord, hch, hp]
  · by_cases hw : |e.currentWaveformMorph - max 0 (min 1 o)| < 0.01
    · simp [setWaveformFromOpenness, hw]
    · simp [setWaveformFromOpenness, hw, hp]
  · simp [start, hctx]

/-- Concrete instance of `settersBeforeInitSilent`: `setLfoDepth` on a fresh
engine mutates the stored depth without any error. -/
theorem settersBeforeInitSilentWitness :
    setLfoDepth defaultEngine 0.5 0
      = { defaultEngine with lfoDepth := max 0.1 (min 1.0 0.5) } :=
  (settersBeforeInitSilent defaultEngine 0 0 0 0.5 0 48 7 Quality.minor
    rfl rfl rfl).2.2.1

/-- Counterexample to C5 as stated: before `initialize()` the engine does
not refuse the setters — `setLfoRate` silently no-ops on a fresh engine
(returning it unchanged, not even storing the rate), and
`setMaxFilterCutoff` silently mutates the stored maximum cutoff from its
default 1000 to 5000 without signalling any failure. -/
theorem settersBeforeInitCounterexample :
    defaultEngine.audioContext = false ∧
    setLfoRate defaultEngine 5 0 = defaultEngine ∧
    (setMaxFilterCutoff defaultEngine 5000 0).maxCutoff = 5000 ∧
    defaultEngine.maxCutoff = 1000 ∧ (5000 : ℝ) ≠ 1000 := by
  refine ⟨rfl, ?_, ?_, rfl, by norm_num⟩
  · simp [setLfoRate, defaultEngine]
  · unfold setMaxFilterCutoff updateLfoDepth updateLfoOffset
    norm_num [defaultEngine]

end HaroldsSynth
